import Mathlib

/-!
Verification development for the Smart IPAM platform.

The repository's `manage.py` CLI drives subnet creation, IP allocation and
deallocation, discovery, conflict checking and utilization reporting.  The
CLI layer (`create_subnet`, `allocate_ip`, `deallocate_ip`) is embedded here
directly from `src/manage.py`.  The core components the spec describes
(`AddressPool`, `AllocationLedger`, `ConflictReconciler`,
`UtilizationCalculator`) live in `smart_ipam.core.*`, which is not part of
the source tree; those are modelled from the spec, and each such definition
says so in its doc comment.
-/

set_option maxRecDepth 4000

/-- IPv4 address as a natural number below `2^32`, built from four octets. -/
def ipv4 (a b c d : Nat) : Nat := ((a * 256 + b) * 256 + c) * 256 + d

/-- An IPv4 network as produced by Python's `ipaddress.ip_network`:
the (masked) network base address and the prefix length. -/
structure IPNetwork where
  base : Nat
  prefixLen : Nat
deriving DecidableEq, Repr

/-- `num_addresses` of a network: `2 ^ (32 - prefixlen)`. -/
def IPNetwork.numAddresses (n : IPNetwork) : Nat := 2 ^ (32 - n.prefixLen)

/-- The broadcast (last) address of the network. -/
def IPNetwork.lastAddr (n : IPNetwork) : Nat := n.base + n.numAddresses - 1

/-- First element of Python's `network.hosts()`: for prefixes at least 31
(`/31` point-to-point and `/32` single host) `hosts()` starts at the network
address itself; otherwise at `base + 1`. -/
def IPNetwork.firstHost (n : IPNetwork) : Nat :=
  if 31 ≤ n.prefixLen then n.base else n.base + 1

/-- The "Available IPs" figure printed by `create_subnet`
(`manage.py` line 144): `network_obj.num_addresses - 2`, computed over
Python's unbounded integers, hence possibly negative. -/
def availableIPs (n : IPNetwork) : Int := (n.numAddresses : Int) - 2

/-- Clear the host bits of `a` under prefix length `p`
(the `strict=False` normalisation done by `ip_network`). -/
def maskHostBits (a p : Nat) : Nat := a / 2 ^ (32 - p) * 2 ^ (32 - p)

/-- Decimal digit test on a character (ASCII `'0'`..`'9'`). -/
def isDigitChar (c : Char) : Bool := decide (48 ≤ c.toNat) && decide (c.toNat ≤ 57)

/-- Value of a decimal digit string (most significant first). -/
def digitsVal (cs : List Char) : Nat :=
  cs.foldl (fun acc c => acc * 10 + (c.toNat - 48)) 0

/-- Split a character list at every occurrence of `sep`, as Python's
`str.split(sep)` does (so `n` separators yield `n+1` groups). -/
def splitOnChar (sep : Char) : List Char → List (List Char)
  | [] => [[]]
  | c :: cs =>
    let r := splitOnChar sep cs
    if c = sep then [] :: r
    else
      match r with
      | [] => [[c]]
      | g :: gs => (c :: g) :: gs

/-- Parse one dotted-quad octet the way `ipaddress._parse_octet` does:
only ASCII digits, at most 3 of them, no leading zero (unless the octet is
exactly `"0"`), value at most 255. -/
def parseOctet (cs : List Char) : Option Nat :=
  if cs.isEmpty then none
  else if !(cs.all isDigitChar) then none
  else if 3 < cs.length then none
  else if decide (1 < cs.length) && (cs.head? == some '0') then none
  else if digitsVal cs ≤ 255 then some (digitsVal cs) else none

/-- Parse a prefix length the way `ipaddress._prefix_from_prefix_string`
does: only ASCII digits (no sign, no whitespace), value at most 32. -/
def parsePrefixLen (cs : List Char) : Option Nat :=
  if cs.isEmpty then none
  else if !(cs.all isDigitChar) then none
  else if digitsVal cs ≤ 32 then some (digitsVal cs) else none

/-- Parse a dotted-quad IPv4 address: exactly four octets separated by dots. -/
def parseIPv4 (cs : List Char) : Option Nat :=
  match (splitOnChar '.' cs).mapM parseOctet with
  | some [a, b, c, d] => some (ipv4 a b c d)
  | _ => none

/-- Embedding of `ipaddress.ip_network(s, strict=False)` for IPv4 input as
called at `manage.py` line 111: split on `/` (at most one slash), parse the
address and the optional prefix length (defaulting to 32), and mask the
host bits (which `strict=False` permits rather than rejecting). -/
def ip_network (s : String) : Option IPNetwork :=
  match splitOnChar '/' s.data with
  | [addrPart] => (parseIPv4 addrPart).map (fun a => ⟨maskHostBits a 32, 32⟩)
  | [addrPart, prefixPart] =>
    match parseIPv4 addrPart, parsePrefixLen prefixPart with
    | some a, some p => some ⟨maskHostBits a p, p⟩
    | _, _ => none
  | _ => none

/-- The decimal digit character for `d` (`d` at most 9; larger inputs clamp
to `'9'` and never arise in our uses). -/
def digitChar (d : Nat) : Char :=
  match d with
  | 0 => '0' | 1 => '1' | 2 => '2' | 3 => '3' | 4 => '4'
  | 5 => '5' | 6 => '6' | 7 => '7' | 8 => '8' | _ => '9'

/-- Decimal rendering of a natural number below 1000 (the range `str` is
applied to here: octet values and prefix lengths). -/
def natDigits (n : Nat) : List Char :=
  if n < 10 then [digitChar n]
  else if n < 100 then [digitChar (n / 10), digitChar (n % 10)]
  else [digitChar (n / 100), digitChar (n / 10 % 10), digitChar (n % 10)]

/-- Python's `str` on an `IPv4Address`: dotted-quad rendering. -/
def ipToString (a : Nat) : String :=
  String.mk (natDigits (a / 2 ^ 24 % 256) ++ '.' ::
    (natDigits (a / 2 ^ 16 % 256) ++ '.' ::
      (natDigits (a / 2 ^ 8 % 256) ++ '.' :: natDigits (a % 256))))

/-- Render octets and prefix length as a CIDR string `a.b.c.d/p`. -/
def renderCIDR (a b c d p : Nat) : String :=
  String.mk (natDigits a ++ '.' ::
    (natDigits b ++ '.' ::
      (natDigits c ++ '.' ::
        (natDigits d ++ '/' :: natDigits p))))

/-- Python's `x or default` idiom on an optional string (used by
`manage.py` for `gateway or str(...)` and `device_type or 'unknown'`):
`None` and the empty string are falsy. -/
def pyOrStr (x : Option String) (d : String) : String :=
  match x with
  | none => d
  | some s => if s = "" then d else s


/-- Allocation lifecycle status.  Modelled from the spec: the
`AllocationLedger` component (`smart_ipam.core`) is not in the source tree;
§3 gives status `active` or `released`. -/
inductive AllocStatus
  | active
  | released
deriving DecidableEq, Repr

/-- Modelled from the spec: a subnet record as the AddressPool sees it
(§3): a CIDR network, a gateway address, and an identifier. -/
structure Subnet where
  sid : Nat
  net : IPNetwork
  gateway : Nat
deriving DecidableEq, Repr

/-- Modelled from the spec: an allocation record of the AllocationLedger
(§3), reduced to the fields the invariants speak about: address, owning
subnet id, status. -/
structure Allocation where
  addr : Nat
  subnetId : Nat
  status : AllocStatus
deriving DecidableEq, Repr

/-- Modelled from the spec: the joint state of the AllocationLedger and the
per-subnet AddressPools (§4.1/§4.2).  The pool's free set is determined by
the ledger's active allocations, so one record suffices. -/
structure Ledger where
  subnets : List Subnet
  allocs : List Allocation
deriving DecidableEq, Repr

/-- Whether `a` is allocatable in subnet `s` (§3 invariant): strictly inside
the host range (excluding the network and broadcast addresses) and not the
gateway. -/
def Subnet.allocatable (s : Subnet) (a : Nat) : Bool :=
  decide (s.net.base < a) && decide (a < s.net.lastAddr) && !(a == s.gateway)

/-- `find_active(address)` of the ledger (§4.2), as a Boolean:
some active allocation at `a` exists. -/
def Ledger.isActive (st : Ledger) (a : Nat) : Bool :=
  st.allocs.any (fun al => al.addr == a && al.status == AllocStatus.active)

/-- All addresses of the subnet's CIDR range, in ascending order. -/
def Subnet.hostAddrs (s : Subnet) : List Nat :=
  (List.range s.net.numAddresses).map (fun i => s.net.base + i)

/-- Modelled from the spec: `AddressPool.reserve_next_free` (§4.1) — the
numerically lowest unused allocatable address of the subnet, or `none` for
`Exhausted`. -/
def reserve_next_free (st : Ledger) (s : Subnet) : Option Nat :=
  s.hostAddrs.find? (fun a => s.allocatable a && !(st.isActive a))

/-- Modelled from the spec: the failure kinds of the ledger operations
(§4.2, §7). -/
inductive IpamError
  | Exhausted
  | AlreadyActive
  | NotInSubnet
  | NotActive
  | NoSuchSubnet
deriving DecidableEq, Repr

/-- Look a subnet up by id. -/
def Ledger.findSubnet (st : Ledger) (sid : Nat) : Option Subnet :=
  st.subnets.find? (fun s => s.sid == sid)

/-- Modelled from the spec: `AllocationLedger.allocate` (§4.2).  Without an
explicit address it delegates to `reserve_next_free`; with one it validates
membership and availability; on success a fresh `active` allocation record
is added atomically. -/
def Ledger.allocate (st : Ledger) (sid : Nat) (addrOpt : Option Nat) :
    Except IpamError (Ledger × Nat) :=
  match st.findSubnet sid with
  | none => Except.error IpamError.NoSuchSubnet
  | some s =>
    match addrOpt with
    | none =>
      match reserve_next_free st s with
      | none => Except.error IpamError.Exhausted
      | some a => Except.ok ({ st with allocs := ⟨a, sid, AllocStatus.active⟩ :: st.allocs }, a)
    | some a =>
      if !(s.allocatable a) then Except.error IpamError.NotInSubnet
      else if st.isActive a then Except.error IpamError.AlreadyActive
      else Except.ok ({ st with allocs := ⟨a, sid, AllocStatus.active⟩ :: st.allocs }, a)

/-- The per-record transition `deallocate` applies: the active allocation at
`a` becomes `released`; every other record is unchanged. -/
def deallocUpd (a : Nat) (al : Allocation) : Allocation :=
  if al.addr == a && al.status == AllocStatus.active
  then { al with status := AllocStatus.released } else al

/-- Modelled from the spec: `AllocationLedger.deallocate` (§4.2) — marks the
active allocation at `a` as `released` (kept as history) and thereby
returns the address to the pool; `NotActive` otherwise. -/
def Ledger.deallocate (st : Ledger) (a : Nat) : Except IpamError Ledger :=
  if st.isActive a then
    Except.ok { st with allocs := st.allocs.map (deallocUpd a) }
  else Except.error IpamError.NotActive

/-- An operation against the ledger: allocate (dynamic when no address is
given, static otherwise) or deallocate. -/
inductive Op
  | alloc (sid : Nat) (addrOpt : Option Nat)
  | dealloc (a : Nat)
deriving DecidableEq, Repr

/-- Apply one operation; a failed operation leaves the state unchanged
(§7: no error may leave the pair in an inconsistent state). -/
def applyOp (st : Ledger) (op : Op) : Ledger :=
  match op with
  | Op.alloc sid ao =>
    match st.allocate sid ao with
    | Except.ok (st', _) => st'
    | Except.error _ => st
  | Op.dealloc a =>
    match st.deallocate a with
    | Except.ok st' => st'
    | Except.error _ => st

/-- The initial state over a given set of subnets: no allocations. -/
def initLedger (subnets : List Subnet) : Ledger := ⟨subnets, []⟩

/-- The state reached after a sequence of operations. -/
def runOps (subnets : List Subnet) (ops : List Op) : Ledger :=
  ops.foldl applyOp (initLedger subnets)

/-- No two active allocations in the ledger share an address (§3). -/
def NoDoubleActive (st : Ledger) : Prop :=
  st.allocs.Pairwise (fun al1 al2 =>
    al1.status = AllocStatus.active → al2.status = AllocStatus.active →
      al1.addr ≠ al2.addr)

/-- Every active allocation's address is allocatable in its subnet (§3, §8). -/
def ActiveInRange (st : Ledger) : Prop :=
  ∀ al ∈ st.allocs, al.status = AllocStatus.active →
    ∃ s ∈ st.subnets, s.sid = al.subnetId ∧ s.allocatable al.addr = true

/-- `a` is free and allocatable in subnet `s` under ledger `st`: strictly
inside the host range, not the gateway, and not actively allocated. -/
def FreeAddr (st : Ledger) (s : Subnet) (a : Nat) : Prop :=
  s.net.base < a ∧ a < s.net.lastAddr ∧ a ≠ s.gateway ∧ st.isActive a = false

/-- A stored subnet record as `create_subnet` sends it to the manager
(`manage.py` lines 115-121): normalised network, name, gateway string. -/
structure SubnetRecord where
  net : IPNetwork
  name : String
  gateway : String
deriving DecidableEq, Repr

/-- Two CIDR ranges intersect. -/
def netsOverlap (m n : IPNetwork) : Bool :=
  decide (m.base ≤ n.lastAddr) && decide (n.base ≤ m.lastAddr)

/-- Modelled from the spec: `SubnetManager.create_subnet`
(`smart_ipam.core.subnet_manager`, not in the source tree).  §3/§7: creation
is rejected with a validation error when the new CIDR intersects an
existing subnet's CIDR; otherwise the record is stored. -/
def SubnetManager.create_subnet (store : List SubnetRecord) (r : SubnetRecord) :
    Except String (List SubnetRecord) :=
  if store.any (fun s => netsOverlap s.net r.net) then Except.error "overlapping subnet"
  else Except.ok (store ++ [r])

/-- Outcome of the `create_subnet` CLI command. -/
inductive CreateOutcome
  | created (net : IPNetwork) (gw : String)
  | invalidCIDR
  | managerError (e : String)
deriving DecidableEq, Repr

/-- Embedding of the `create_subnet` CLI command (`manage.py` lines
105-160): parse the CIDR first (a `ValueError` is caught at line 155 and
exits before the manager is ever constructed or called); on success build
`subnet_data` with the gateway defaulted via `gateway or
str(list(network_obj.hosts())[0])` (line 120) and call the manager once.
The returned `Nat` counts manager invocations. -/
def create_subnet_cli (network : String) (name : String) (gateway : Option String)
    (store : List SubnetRecord) : CreateOutcome × List SubnetRecord × Nat :=
  match ip_network network with
  | none => (CreateOutcome.invalidCIDR, store, 0)
  | some net =>
    let gw := pyOrStr gateway (ipToString net.firstHost)
    match SubnetManager.create_subnet store ⟨net, name, gw⟩ with
    | Except.ok store' => (CreateOutcome.created net gw, store', 1)
    | Except.error e => (CreateOutcome.managerError e, store, 1)

/-- The `allocation_data` dictionary built by the `allocate_ip` CLI command
(`manage.py` lines 177-184). -/
structure AllocationData where
  subnet : String
  hostname : Option String
  device_type : String
  owner : Option String
  description : Option String
  allocation_type : String
deriving DecidableEq, Repr

/-- Embedding of the `allocation_data` construction in `allocate_ip`
(`manage.py` lines 177-184): `device_type or 'unknown'`,
`'static' if static else 'dynamic'`, everything else passed through. -/
def mkAllocationData (subnet : String) (hostname device_type owner description : Option String)
    (isStatic : Bool) : AllocationData :=
  { subnet := subnet
    hostname := hostname
    device_type := pyOrStr device_type "unknown"
    owner := owner
    description := description
    allocation_type := if isStatic then "static" else "dynamic" }

/-- Outcome of the `deallocate_ip` CLI command: cancelled at the
confirmation prompt, success, or failure (which exits with code 1). -/
inductive DeallocOutcome
  | cancelled
  | success
  | failure
deriving DecidableEq, Repr

/-- The process exit code of each `deallocate_ip` outcome: only failure
reaches `sys.exit(1)`. -/
def deallocExitCode : DeallocOutcome → Nat
  | DeallocOutcome.failure => 1
  | _ => 0

/-- Embedding of the `deallocate_ip` CLI command (`manage.py` lines
228-261): without `--force`, a declined confirmation returns immediately
(lines 233-236) before the manager is constructed; otherwise the manager's
`deallocate_ip` runs once.  The returned `Nat` counts manager invocations. -/
def deallocate_ip_cli (force confirmed : Bool) (a : Nat) (st : Ledger) :
    DeallocOutcome × Ledger × Nat :=
  if !force && !confirmed then (DeallocOutcome.cancelled, st, 0)
  else
    match st.deallocate a with
    | Except.ok st' => (DeallocOutcome.success, st', 1)
    | Except.error _ => (DeallocOutcome.failure, st, 1)

/-- Modelled from the spec: the ledger side of a reconciliation input
(§4.4): an active allocation's address together with the most recent
previously-recorded identity (MAC) for it, if any. -/
structure ActiveAlloc where
  addr : Nat
  priorMac : Option String
deriving DecidableEq, Repr

/-- Modelled from the spec: a discovery-snapshot entry (§3): observed
address with optional MAC. -/
structure DiscoveredDevice where
  addr : Nat
  mac : Option String
deriving DecidableEq, Repr

/-- Modelled from the spec: the conflict kinds of §4.4. -/
inductive ConflictKind
  | Stale
  | Mismatch
  | Rogue
deriving DecidableEq, Repr

/-- Modelled from the spec: a reconciliation finding (§3). -/
structure Conflict where
  addr : Nat
  kind : ConflictKind
deriving DecidableEq, Repr

/-- Identity inconsistency (§4.4): a recorded prior MAC and an observed MAC
both exist and differ; with no prior identity nothing is flagged. -/
def identityMismatch (al : ActiveAlloc) (d : DiscoveredDevice) : Bool :=
  match al.priorMac, d.mac with
  | some m, some m' => !(m == m')
  | _, _ => false

/-- Modelled from the spec: the ConflictReconciler (§4.4), a pure function
of the two snapshots.  Per address: active allocation with no observed
device yields `Stale`; active allocation with an inconsistent observed
identity yields `Mismatch`; observed device with no active allocation
yields `Rogue`; a consistent pair yields nothing. -/
def reconcile (allocs : List ActiveAlloc) (devs : List DiscoveredDevice) : List Conflict :=
  allocs.filterMap (fun al =>
    match devs.find? (fun d => d.addr == al.addr) with
    | none => some ⟨al.addr, ConflictKind.Stale⟩
    | some d => if identityMismatch al d then some ⟨al.addr, ConflictKind.Mismatch⟩ else none)
  ++ devs.filterMap (fun d =>
    if allocs.any (fun al => al.addr == d.addr) then none
    else some ⟨d.addr, ConflictKind.Rogue⟩)

/-- Modelled from the spec: the UtilizationCalculator (§4.5):
`allocated_count / total_allocatable_count * 100`, with `0/0` defined as 0
(exact rational arithmetic; the spec forbids NaN/undefined results). -/
def utilization_pct (allocated total : Nat) : ℚ :=
  if total = 0 then 0 else (allocated : ℚ) / (total : ℚ) * 100

/-- A `/30` subnet `10.0.0.0/30` with gateway `10.0.0.1`: its only free
allocatable address is `10.0.0.2`. -/
def demoSubnet : Subnet := ⟨1, ⟨ipv4 10 0 0 0, 30⟩, ipv4 10 0 0 1⟩

/-- A ledger holding `demoSubnet` with no allocations yet. -/
def demoLedger : Ledger := ⟨[demoSubnet], []⟩

/-- A `/31` subnet: its host range (network and broadcast excluded) is empty. -/
def fullSubnet : Subnet := ⟨2, ⟨ipv4 10 0 0 0, 31⟩, ipv4 10 0 0 1⟩


/-- C2: when subnet creation is given no gateway, the gateway defaults to
the first host address of the CIDR network; creating `192.168.1.0/24`
without a gateway yields gateway `192.168.1.1` and reports 254 available
addresses, and a `/31` reports 0 available addresses. -/
theorem c2_gateway_default_and_pool_sizes :
    (∀ (s : String) (net : IPNetwork) (name : String) (store : List SubnetRecord),
      ip_network s = some net → (∀ r ∈ store, netsOverlap r.net net = false) →
      (create_subnet_cli s name none store).1 =
        CreateOutcome.created net (ipToString net.firstHost))
    ∧ create_subnet_cli "192.168.1.0/24" "lan" none [] =
        (CreateOutcome.created ⟨ipv4 192 168 1 0, 24⟩ "192.168.1.1",
          [⟨⟨ipv4 192 168 1 0, 24⟩, "lan", "192.168.1.1"⟩], 1)
    ∧ availableIPs ⟨ipv4 192 168 1 0, 24⟩ = 254
    ∧ ip_network "10.0.0.0/31" = some ⟨ipv4 10 0 0 0, 31⟩
    ∧ availableIPs ⟨ipv4 10 0 0 0, 31⟩ = 0 := by
  refine ⟨?_, by decide, by decide, by decide, by decide⟩
  intro s net name store hparse hover
  have h2 : store.any (fun r => netsOverlap r.net net) = false := by
    rw [List.any_eq_false]
    intro x hx
    simp [hover x hx]
  simp [create_subnet_cli, hparse, SubnetManager.create_subnet, h2, pyOrStr]

/-- C2 witness: the general default-gateway clause applied to
`192.168.1.0/24` over an empty store. -/
theorem c2_gateway_default_witness :
    (create_subnet_cli "192.168.1.0/24" "lan" none []).1 =
      CreateOutcome.created ⟨ipv4 192 168 1 0, 24⟩
        (ipToString (IPNetwork.firstHost ⟨ipv4 192 168 1 0, 24⟩)) :=
  c2_gateway_default_and_pool_sizes.1 "192.168.1.0/24" ⟨ipv4 192 168 1 0, 24⟩ "lan" []
    (by decide) (by decide)

/-- C3 counter-evidence: for the single-host network `203.0.113.7/32` the
CLI's "Available IPs" value `num_addresses - 2` is `-1`, a negative number,
so the pool size reported at creation is not floored at zero. -/
theorem c3_slash32_reports_negative :
    ip_network "203.0.113.7/32" = some ⟨ipv4 203 0 113 7, 32⟩
    ∧ availableIPs ⟨ipv4 203 0 113 7, 32⟩ = -1
    ∧ availableIPs ⟨ipv4 203 0 113 7, 32⟩ < 0 := by decide

/-- C7: utilization is `allocated / total * 100` over exact rationals, is 0
when the allocatable total is 0, and is always a well-defined nonnegative
rational (never NaN, never a division fault). -/
theorem c7_utilization_total_and_zero_safe (allocated total : Nat) :
    utilization_pct allocated 0 = 0
    ∧ 0 ≤ utilization_pct allocated total
    ∧ (total ≠ 0 →
        utilization_pct allocated total * (total : ℚ) = (allocated : ℚ) * 100) := by
  refine ⟨by simp [utilization_pct], ?_, ?_⟩
  · unfold utilization_pct
    split
    · exact le_refl 0
    · positivity
  · intro ht
    unfold utilization_pct
    rw [if_neg ht]
    have htq : (total : ℚ) ≠ 0 := by exact_mod_cast ht
    field_simp

/-- C7 witness: the division clause evaluated at 1 allocated of 2. -/
theorem c7_utilization_witness :
    utilization_pct 1 2 * ((2 : Nat) : ℚ) = ((1 : Nat) : ℚ) * 100 :=
  (c7_utilization_total_and_zero_safe 1 2).2.2 (by decide)

/-- C9: a `deallocate_ip` invocation without `--force` whose confirmation
is declined mutates nothing: the manager's deallocate is never invoked
(call count 0), the ledger is returned unchanged, and the command exits
without an error code. -/
theorem c9_declined_confirmation_is_noop (a : Nat) (st : Ledger) :
    deallocate_ip_cli false false a st = (DeallocOutcome.cancelled, st, 0)
    ∧ deallocExitCode (deallocate_ip_cli false false a st).1 = 0 := by
  exact ⟨rfl, rfl⟩

/-- C10: the allocation request records `allocation_type` `"static"` iff
the `--static` flag is given (else `"dynamic"`), records `device_type`
`"unknown"` when none is supplied, and passes omitted hostname, owner and
description through as `none`. -/
theorem c10_allocation_data_fields (subnet : String)
    (hostname owner description : Option String) (isStatic : Bool) :
    (mkAllocationData subnet hostname none owner description isStatic).device_type = "unknown"
    ∧ ∀ dt : Option String,
        ((mkAllocationData subnet hostname dt owner description isStatic).allocation_type
            = "static" ↔ isStatic = true)
        ∧ ((mkAllocationData subnet hostname dt owner description isStatic).allocation_type
            = "dynamic" ↔ isStatic = false)
        ∧ (mkAllocationData subnet hostname dt owner description isStatic).hostname = hostname
        ∧ (mkAllocationData subnet hostname dt owner description isStatic).owner = owner
        ∧ (mkAllocationData subnet hostname dt owner description isStatic).description
            = description := by
  refine ⟨rfl, ?_⟩
  intro dt
  refine ⟨?_, ?_, rfl, rfl, rfl⟩
  · cases isStatic <;> simp [mkAllocationData]
  · cases isStatic <;> simp [mkAllocationData]

/-- C4: a malformed CIDR string fails `create_subnet` with a validation
error before any state mutation — the manager is never called (call count
0) and the store is unchanged — and the failure is recoverable: retrying
with a well-formed, non-overlapping CIDR succeeds and stores the record. -/
theorem c4_malformed_cidr_rejected_before_mutation
    (network name : String) (gw : Option String) (store : List SubnetRecord)
    (h : ip_network network = none) :
    create_subnet_cli network name gw store = (CreateOutcome.invalidCIDR, store, 0)
    ∧ ∀ (network' : String) (net : IPNetwork),
        ip_network network' = some net →
        (∀ r ∈ store, netsOverlap r.net net = false) →
        create_subnet_cli network' name gw store =
          (CreateOutcome.created net (pyOrStr gw (ipToString net.firstHost)),
            store ++ [⟨net, name, pyOrStr gw (ipToString net.firstHost)⟩], 1) := by
  constructor
  · simp [create_subnet_cli, h]
  · intro network' net hp hover
    have h2 : store.any (fun r => netsOverlap r.net net) = false := by
      rw [List.any_eq_false]
      intro x hx
      simp [hover x hx]
    simp [create_subnet_cli, hp, SubnetManager.create_subnet, h2]

/-- C4 witness: the malformed input `"not-a-cidr"` is rejected without a
manager call, and the retry `"10.0.0.0/24"` succeeds. -/
theorem c4_malformed_cidr_witness :
    create_subnet_cli "not-a-cidr" "lan" none [] = (CreateOutcome.invalidCIDR, [], 0)
    ∧ create_subnet_cli "10.0.0.0/24" "lan" none [] =
        (CreateOutcome.created ⟨ipv4 10 0 0 0, 24⟩
          (pyOrStr none (ipToString (IPNetwork.firstHost ⟨ipv4 10 0 0 0, 24⟩))),
          [] ++ [⟨⟨ipv4 10 0 0 0, 24⟩, "lan",
            pyOrStr none (ipToString (IPNetwork.firstHost ⟨ipv4 10 0 0 0, 24⟩))⟩], 1) := by
  have h := c4_malformed_cidr_rejected_before_mutation "not-a-cidr" "lan" none [] (by decide)
  exact ⟨h.1, h.2 "10.0.0.0/24" ⟨ipv4 10 0 0 0, 24⟩ (by decide) (by decide)⟩

/-- A digit character (index below 10) passes the digit test. -/
lemma isDigitChar_digitChar (d : Nat) (h : d < 10) : isDigitChar (digitChar d) = true := by
  interval_cases d <;> decide

/-- Code point of a digit character with index below 10. -/
lemma toNat_digitChar (d : Nat) (h : d < 10) : (digitChar d).toNat = 48 + d := by
  interval_cases d <;> decide

/-- Every character of a rendered numeral is a decimal digit. -/
lemma natDigits_all_digit (n : Nat) (hn : n < 1000) :
    ∀ c ∈ natDigits n, isDigitChar c = true := by
  intro c hc
  unfold natDigits at hc
  split at hc
  · simp only [List.mem_singleton] at hc
    subst hc
    exact isDigitChar_digitChar _ (by omega)
  · split at hc
    · simp only [List.mem_cons, List.mem_singleton, List.not_mem_nil, or_false] at hc
      rcases hc with hc | hc
      · exact hc ▸ isDigitChar_digitChar _ (by omega)
      · exact hc ▸ isDigitChar_digitChar _ (by omega)
    · simp only [List.mem_cons, List.mem_singleton, List.not_mem_nil, or_false] at hc
      rcases hc with hc | hc | hc
      · exact hc ▸ isDigitChar_digitChar _ (by omega)
      · exact hc ▸ isDigitChar_digitChar _ (by omega)
      · exact hc ▸ isDigitChar_digitChar _ (by omega)

/-- Rendering then parsing an octet value is the identity. -/
lemma parseOctet_natDigits : ∀ n, n < 256 → parseOctet (natDigits n) = some n := by decide

/-- Rendering then parsing a prefix length is the identity. -/
lemma parsePrefixLen_natDigits : ∀ p, p < 33 → parsePrefixLen (natDigits p) = some p := by decide

/-- A character failing the digit test is not in a rendered numeral. -/
lemma not_mem_natDigits (n : Nat) (hn : n < 1000) (c : Char)
    (hc : isDigitChar c = false) : c ∉ natDigits n := by
  intro hm
  have := natDigits_all_digit n hn c hm
  rw [hc] at this
  exact Bool.false_ne_true this

/-- Splitting a separator-free list yields that single group. -/
lemma splitOnChar_no_sep (sep : Char) (xs : List Char) (h : sep ∉ xs) :
    splitOnChar sep xs = [xs] := by
  induction xs with
  | nil => rfl
  | cons c cs ih =>
    have hc : ¬ c = sep := fun he => h (he ▸ List.mem_cons_self c cs)
    have hcs : sep ∉ cs := fun h' => h (List.mem_cons_of_mem _ h')
    simp [splitOnChar, hc, ih hcs]

/-- Splitting at the first separator peels off the leading group. -/
lemma splitOnChar_append (sep : Char) (xs ys : List Char) (h : sep ∉ xs) :
    splitOnChar sep (xs ++ sep :: ys) = xs :: splitOnChar sep ys := by
  induction xs with
  | nil => simp [splitOnChar]
  | cons c cs ih =>
    have hc : ¬ c = sep := fun he => h (he ▸ List.mem_cons_self c cs)
    have hcs : sep ∉ cs := fun h' => h (List.mem_cons_of_mem _ h')
    simp [splitOnChar, hc, ih hcs]

/-- A parsed prefix length is at most 32. -/
lemma parsePrefixLen_le (cs : List Char) (p : Nat) (h : parsePrefixLen cs = some p) :
    p ≤ 32 := by
  unfold parsePrefixLen at h
  split_ifs at h with h1 h2 h3
  cases h
  omega

/-- Masking host bits is idempotent. -/
lemma maskHostBits_idem (a p : Nat) : maskHostBits (maskHostBits a p) p = maskHostBits a p := by
  unfold maskHostBits
  rw [Nat.mul_div_cancel _ (by positivity : 0 < 2 ^ (32 - p))]

/-- C8: subnet creation accepts a CIDR whose host bits are set and silently
normalizes it to the containing network: every syntactically valid
dotted-quad/prefix input parses under `strict=False`, the stored network is
always host-bit normalized, and in particular `192.168.1.5/24` parses to
`192.168.1.0/24`. -/
theorem c8_nonstrict_parse_normalizes :
    (∀ (s : String) (n : IPNetwork), ip_network s = some n →
        n.prefixLen ≤ 32 ∧ maskHostBits n.base n.prefixLen = n.base)
    ∧ (∀ a b c d p : Nat, a < 256 → b < 256 → c < 256 → d < 256 → p < 33 →
        ip_network (renderCIDR a b c d p) = some ⟨maskHostBits (ipv4 a b c d) p, p⟩)
    ∧ ip_network "192.168.1.5/24" = some ⟨ipv4 192 168 1 0, 24⟩
    ∧ maskHostBits (ipv4 192 168 1 5) 24 = ipv4 192 168 1 0 := by
  refine ⟨?_, ?_, by decide, by decide⟩
  · intro s n h
    unfold ip_network at h
    split at h
    · rcases Option.map_eq_some'.mp h with ⟨a, _, rfl⟩
      exact ⟨le_refl 32, maskHostBits_idem a 32⟩
    · split at h
      next a p ha hp =>
        cases h
        exact ⟨parsePrefixLen_le _ p hp, maskHostBits_idem a p⟩
      next hnone =>
        cases h
    · cases h
  · intro a b c d p ha hb hc hd hp
    have hda : '.' ∉ natDigits a := not_mem_natDigits a (by omega) '.' (by decide)
    have hdb : '.' ∉ natDigits b := not_mem_natDigits b (by omega) '.' (by decide)
    have hdc : '.' ∉ natDigits c := not_mem_natDigits c (by omega) '.' (by decide)
    have hdd : '.' ∉ natDigits d := not_mem_natDigits d (by omega) '.' (by decide)
    have hsa : '/' ∉ natDigits a := not_mem_natDigits a (by omega) '/' (by decide)
    have hsb : '/' ∉ natDigits b := not_mem_natDigits b (by omega) '/' (by decide)
    have hsc : '/' ∉ natDigits c := not_mem_natDigits c (by omega) '/' (by decide)
    have hsd : '/' ∉ natDigits d := not_mem_natDigits d (by omega) '/' (by decide)
    have hform : (renderCIDR a b c d p).data =
        (natDigits a ++ '.' :: (natDigits b ++ '.' :: (natDigits c ++ '.' :: natDigits d)))
          ++ '/' :: natDigits p := by
      simp [renderCIDR]
    have hnosl :
        '/' ∉ natDigits a ++ '.' :: (natDigits b ++ '.' :: (natDigits c ++ '.' :: natDigits d)) := by
      simp only [List.mem_append, List.mem_cons]
      push_neg
      refine ⟨hsa, by decide, hsb, by decide, hsc, by decide, hsd⟩
    have hsplit1 : splitOnChar '/' ((renderCIDR a b c d p).data) =
        [natDigits a ++ '.' :: (natDigits b ++ '.' :: (natDigits c ++ '.' :: natDigits d)),
          natDigits p] := by
      rw [hform, splitOnChar_append '/' _ _ hnosl,
        splitOnChar_no_sep '/' _ (not_mem_natDigits p (by omega) '/' (by decide))]
    have hsplit2 : splitOnChar '.'
        (natDigits a ++ '.' :: (natDigits b ++ '.' :: (natDigits c ++ '.' :: natDigits d))) =
        [natDigits a, natDigits b, natDigits c, natDigits d] := by
      rw [splitOnChar_append '.' _ _ hda, splitOnChar_append '.' _ _ hdb,
        splitOnChar_append '.' _ _ hdc, splitOnChar_no_sep '.' _ hdd]
    have hip : parseIPv4
        (natDigits a ++ '.' :: (natDigits b ++ '.' :: (natDigits c ++ '.' :: natDigits d))) =
        some (ipv4 a b c d) := by
      unfold parseIPv4
      rw [hsplit2]
      simp [List.mapM, List.mapM.loop, parseOctet_natDigits a (by omega),
        parseOctet_natDigits b (by omega), parseOctet_natDigits c (by omega),
        parseOctet_natDigits d (by omega)]
    unfold ip_network
    rw [hsplit1]
    simp [hip, parsePrefixLen_natDigits p hp]

/-- C8 witness: the universal clauses applied to `192.168.1.5/24`. -/
theorem c8_nonstrict_parse_witness :
    (IPNetwork.prefixLen ⟨ipv4 192 168 1 0, 24⟩ ≤ 32
      ∧ maskHostBits (IPNetwork.base ⟨ipv4 192 168 1 0, 24⟩)
          (IPNetwork.prefixLen ⟨ipv4 192 168 1 0, 24⟩)
        = IPNetwork.base ⟨ipv4 192 168 1 0, 24⟩)
    ∧ ip_network (renderCIDR 192 168 1 5 24) = some ⟨maskHostBits (ipv4 192 168 1 5) 24, 24⟩ :=
  ⟨c8_nonstrict_parse_normalizes.1 "192.168.1.5/24" ⟨ipv4 192 168 1 0, 24⟩ (by decide),
    c8_nonstrict_parse_normalizes.2.1 192 168 1 5 24 (by decide) (by decide) (by decide)
      (by decide) (by decide)⟩

/-- A `find?` on a strictly sorted list returns the least satisfying element. -/
lemma find?_min_sorted {l : List Nat} {p : Nat → Bool} {x : Nat}
    (hs : l.Pairwise (· < ·)) (hx : l.find? p = some x) :
    ∀ y ∈ l, p y = true → x ≤ y := by
  induction l with
  | nil => cases hx
  | cons a l ih =>
    rw [List.find?_cons] at hx
    cases hpa : p a with
    | true =>
      rw [hpa] at hx
      cases hx
      intro y hy hpy
      rcases List.mem_cons.mp hy with rfl | hy'
      · exact le_refl _
      · exact le_of_lt (List.rel_of_pairwise_cons hs hy')
    | false =>
      rw [hpa] at hx
      intro y hy hpy
      rcases List.mem_cons.mp hy with rfl | hy'
      · rw [hpy] at hpa; cases hpa
      · exact ih hs.of_cons hx y hy' hpy

/-- The subnet's address list is strictly ascending. -/
lemma hostAddrs_pairwise (s : Subnet) : s.hostAddrs.Pairwise (· < ·) :=
  List.Pairwise.map _ (fun _ _ h => Nat.add_lt_add_left h _) (List.pairwise_lt_range _)

/-- Membership in the subnet's address list is exactly the CIDR range. -/
lemma mem_hostAddrs (s : Subnet) (a : Nat) :
    a ∈ s.hostAddrs ↔ s.net.base ≤ a ∧ a < s.net.base + s.net.numAddresses := by
  unfold Subnet.hostAddrs
  simp only [List.mem_map, List.mem_range]
  constructor
  · rintro ⟨i, hi, rfl⟩
    omega
  · rintro ⟨h1, h2⟩
    exact ⟨a - s.net.base, by omega, by omega⟩

/-- `FreeAddr` coincides with the Boolean test `reserve_next_free` scans with. -/
lemma freeAddr_iff_pred (st : Ledger) (s : Subnet) (a : Nat) :
    FreeAddr st s a ↔ (s.allocatable a && !(st.isActive a)) = true := by
  unfold FreeAddr Subnet.allocatable
  simp only [Bool.and_eq_true, decide_eq_true_eq, Bool.not_eq_true', beq_eq_false_iff_ne, ne_eq]
  tauto

/-- A free address lies in the subnet's address list. -/
lemma freeAddr_mem_hostAddrs (st : Ledger) (s : Subnet) (a : Nat) (h : FreeAddr st s a) :
    a ∈ s.hostAddrs := by
  obtain ⟨h1, h2, -, -⟩ := h
  have hpos : 0 < s.net.numAddresses := pow_pos (by norm_num) _
  rw [mem_hostAddrs]
  unfold IPNetwork.lastAddr at h2
  omega

/-- C5: when a free allocatable address exists, `reserve_next_free` returns
the numerically lowest unused allocatable address of the subnet's host
range (excluding network, broadcast, gateway, and active allocations);
when none exists it returns `none` (`Exhausted`). -/
theorem c5_reserve_next_free_lowest (st : Ledger) (s : Subnet) :
    ((∃ a, FreeAddr st s a) →
      ∃ x, reserve_next_free st s = some x ∧ FreeAddr st s x ∧ ∀ b, FreeAddr st s b → x ≤ b)
    ∧ ((∀ a, ¬ FreeAddr st s a) → reserve_next_free st s = none) := by
  constructor
  · rintro ⟨a, ha⟩
    have hmem : a ∈ s.hostAddrs := freeAddr_mem_hostAddrs st s a ha
    have hpred : (s.allocatable a && !(st.isActive a)) = true := (freeAddr_iff_pred st s a).mp ha
    cases hfind : reserve_next_free st s with
    | none =>
      exfalso
      unfold reserve_next_free at hfind
      rw [List.find?_eq_none] at hfind
      exact hfind a hmem hpred
    | some x =>
      have hfind' : s.hostAddrs.find? (fun a => s.allocatable a && !(st.isActive a)) = some x :=
        hfind
      have hpx := List.find?_some hfind'
      refine ⟨x, rfl, (freeAddr_iff_pred st s x).mpr (by simpa using hpx), ?_⟩
      intro b hb
      exact find?_min_sorted (hostAddrs_pairwise s) hfind' b
        (freeAddr_mem_hostAddrs st s b hb) ((freeAddr_iff_pred st s b).mp hb)
  · intro hnone
    unfold reserve_next_free
    rw [List.find?_eq_none]
    intro x hx hpx
    exact hnone x ((freeAddr_iff_pred st s x).mpr hpx)

/-- C5 witness: both clauses applied to concrete pools — the `/30` has a free
address, the `/31` is exhausted. -/
theorem c5_reserve_next_free_witness :
    (∃ x, reserve_next_free demoLedger demoSubnet = some x ∧ FreeAddr demoLedger demoSubnet x
        ∧ ∀ b, FreeAddr demoLedger demoSubnet b → x ≤ b)
    ∧ reserve_next_free demoLedger fullSubnet = none :=
  ⟨(c5_reserve_next_free_lowest demoLedger demoSubnet).1
      ⟨ipv4 10 0 0 2, by decide, by decide, by decide, by decide⟩,
    (c5_reserve_next_free_lowest demoLedger fullSubnet).2 (by
      intro a ha
      obtain ⟨h1, h2, -, -⟩ := ha
      have he : IPNetwork.lastAddr (Subnet.net fullSubnet) = ipv4 10 0 0 0 + 1 := by decide
      have hb : (Subnet.net fullSubnet).base = ipv4 10 0 0 0 := rfl
      rw [he] at h2
      rw [hb] at h1
      omega)⟩

/-- A subnet found by id is a stored subnet with that id. -/
lemma findSubnet_mem (st : Ledger) (sid : Nat) (s : Subnet)
    (h : st.findSubnet sid = some s) : s ∈ st.subnets ∧ s.sid = sid := by
  refine ⟨List.mem_of_find?_eq_some h, ?_⟩
  have := List.find?_some h
  simpa using this

/-- `isActive` is false exactly when no stored record is active at `a`. -/
lemma isActive_false_iff (st : Ledger) (a : Nat) :
    st.isActive a = false ↔
      ∀ al ∈ st.allocs, al.addr = a → al.status ≠ AllocStatus.active := by
  unfold Ledger.isActive
  rw [List.any_eq_false]
  constructor
  · intro h al hal haddr hst
    exact h al hal (by simp [haddr, hst])
  · intro h al hal hb
    simp only [Bool.and_eq_true, beq_iff_eq] at hb
    exact h al hal hb.1 hb.2

/-- `allocate` with no subnet fails. -/
lemma allocate_no_subnet (st : Ledger) (sid : Nat) (ao : Option Nat)
    (hfs : st.findSubnet sid = none) :
    st.allocate sid ao = Except.error IpamError.NoSuchSubnet := by
  unfold Ledger.allocate
  rw [hfs]

/-- Dynamic `allocate` over an exhausted pool fails. -/
lemma allocate_dyn_exhausted (st : Ledger) (sid : Nat) (s : Subnet)
    (hfs : st.findSubnet sid = some s) (hr : reserve_next_free st s = none) :
    st.allocate sid none = Except.error IpamError.Exhausted := by
  unfold Ledger.allocate
  rw [hfs]
  simp [hr]

/-- Dynamic `allocate` takes the reserved address and records it active. -/
lemma allocate_dyn_ok (st : Ledger) (sid : Nat) (s : Subnet) (a : Nat)
    (hfs : st.findSubnet sid = some s) (hr : reserve_next_free st s = some a) :
    st.allocate sid none =
      Except.ok ({ st with allocs := ⟨a, sid, AllocStatus.active⟩ :: st.allocs }, a) := by
  unfold Ledger.allocate
  rw [hfs]
  simp [hr]

/-- Static `allocate` of a non-allocatable address fails. -/
lemma allocate_static_notin (st : Ledger) (sid : Nat) (s : Subnet) (a : Nat)
    (hfs : st.findSubnet sid = some s) (hall : s.allocatable a = false) :
    st.allocate sid (some a) = Except.error IpamError.NotInSubnet := by
  unfold Ledger.allocate
  rw [hfs]
  simp [hall]

/-- Static `allocate` of an actively allocated address fails. -/
lemma allocate_static_already (st : Ledger) (sid : Nat) (s : Subnet) (a : Nat)
    (hfs : st.findSubnet sid = some s) (hall : s.allocatable a = true)
    (hact : st.isActive a = true) :
    st.allocate sid (some a) = Except.error IpamError.AlreadyActive := by
  unfold Ledger.allocate
  rw [hfs]
  simp [hall, hact]

/-- Static `allocate` of a free allocatable address records it active. -/
lemma allocate_static_ok (st : Ledger) (sid : Nat) (s : Subnet) (a : Nat)
    (hfs : st.findSubnet sid = some s) (hall : s.allocatable a = true)
    (hact : st.isActive a = false) :
    st.allocate sid (some a) =
      Except.ok ({ st with allocs := ⟨a, sid, AllocStatus.active⟩ :: st.allocs }, a) := by
  unfold Ledger.allocate
  rw [hfs]
  simp [hall, hact]

/-- Any successful `allocate` adds one active record at an allocatable,
previously inactive, address of the found subnet. -/
lemma allocate_ok_shape (st : Ledger) (sid : Nat) (ao : Option Nat) (st' : Ledger) (x : Nat)
    (h : st.allocate sid ao = Except.ok (st', x)) :
    ∃ s, st.findSubnet sid = some s ∧ s.allocatable x = true ∧ st.isActive x = false ∧
      st' = { st with allocs := ⟨x, sid, AllocStatus.active⟩ :: st.allocs } := by
  cases hfs : st.findSubnet sid with
  | none =>
    rw [allocate_no_subnet st sid ao hfs] at h
    exact Except.noConfusion h
  | some s =>
    cases ao with
    | none =>
      cases hr : reserve_next_free st s with
      | none =>
        rw [allocate_dyn_exhausted st sid s hfs hr] at h
        exact Except.noConfusion h
      | some a =>
        rw [allocate_dyn_ok st sid s a hfs hr] at h
        have hpair := Except.ok.inj h
        have hst : st' = { st with allocs := ⟨a, sid, AllocStatus.active⟩ :: st.allocs } :=
          (Prod.mk.injEq _ _ _ _ ▸ hpair).1.symm
        have hx : x = a := (Prod.mk.injEq _ _ _ _ ▸ hpair).2.symm
        subst hx
        have hfind' : s.hostAddrs.find? (fun b => s.allocatable b && !(st.isActive b))
            = some x := hr
        have hp : (s.allocatable x && !(st.isActive x)) = true := by
          simpa using List.find?_some hfind'
        obtain ⟨hall, hact⟩ := (Bool.and_eq_true _ _).mp hp
        exact ⟨s, rfl, hall, by simpa using hact, hst⟩
    | some a =>
      cases hall : s.allocatable a with
      | false =>
        rw [allocate_static_notin st sid s a hfs hall] at h
        exact Except.noConfusion h
      | true =>
        cases hact : st.isActive a with
        | true =>
          rw [allocate_static_already st sid s a hfs hall hact] at h
          exact Except.noConfusion h
        | false =>
          rw [allocate_static_ok st sid s a hfs hall hact] at h
          have hpair := Except.ok.inj h
          have hst : st' = { st with allocs := ⟨a, sid, AllocStatus.active⟩ :: st.allocs } :=
            (Prod.mk.injEq _ _ _ _ ▸ hpair).1.symm
          have hx : x = a := (Prod.mk.injEq _ _ _ _ ▸ hpair).2.symm
          subst hx
          exact ⟨s, rfl, hall, hact, hst⟩

/-- Any successful `deallocate` only updates records through `deallocUpd`. -/
lemma deallocate_ok_shape (st : Ledger) (a : Nat) (st' : Ledger)
    (h : st.deallocate a = Except.ok st') :
    st' = { st with allocs := st.allocs.map (deallocUpd a) } := by
  unfold Ledger.deallocate at h
  split_ifs at h
  cases h
  rfl

/-- `deallocUpd` never changes the address. -/
lemma deallocUpd_addr (a : Nat) (al : Allocation) : (deallocUpd a al).addr = al.addr := by
  unfold deallocUpd
  split <;> rfl

/-- `deallocUpd` never changes the owning subnet. -/
lemma deallocUpd_subnetId (a : Nat) (al : Allocation) :
    (deallocUpd a al).subnetId = al.subnetId := by
  unfold deallocUpd
  split <;> rfl

/-- `deallocUpd` never activates a record. -/
lemma deallocUpd_active (a : Nat) (al : Allocation)
    (h : (deallocUpd a al).status = AllocStatus.active) :
    al.status = AllocStatus.active := by
  unfold deallocUpd at h
  split at h
  · exact AllocStatus.noConfusion h
  · exact h

/-- One step of any operation preserves both invariants. -/
lemma inv_preserved (st : Ledger) (op : Op)
    (h1 : NoDoubleActive st) (h2 : ActiveInRange st) :
    NoDoubleActive (applyOp st op) ∧ ActiveInRange (applyOp st op) := by
  cases op with
  | alloc sid ao =>
    cases hres : st.allocate sid ao with
    | error e =>
      simp only [applyOp]
      rw [hres]
      exact ⟨h1, h2⟩
    | ok p =>
      obtain ⟨st', x⟩ := p
      simp only [applyOp]
      rw [hres]
      obtain ⟨s, hfs, hall, hact, rfl⟩ := allocate_ok_shape st sid ao st' x hres
      constructor
      · unfold NoDoubleActive at h1 ⊢
        rw [List.pairwise_cons]
        refine ⟨?_, h1⟩
        intro al hal _ halact heq
        exact (isActive_false_iff st x).mp hact al hal heq.symm halact
      · unfold ActiveInRange at h2 ⊢
        intro al hal halact
        rcases List.mem_cons.mp hal with rfl | hmem
        · exact ⟨s, (findSubnet_mem st sid s hfs).1, (findSubnet_mem st sid s hfs).2, hall⟩
        · exact h2 al hmem halact
  | dealloc a =>
    cases hres : st.deallocate a with
    | error e =>
      simp only [applyOp]
      rw [hres]
      exact ⟨h1, h2⟩
    | ok st' =>
      simp only [applyOp]
      rw [hres]
      obtain rfl := deallocate_ok_shape st a st' hres
      constructor
      · unfold NoDoubleActive at h1 ⊢
        refine List.Pairwise.map (deallocUpd a) ?_ h1
        intro al1 al2 hr ha1 ha2
        rw [deallocUpd_addr, deallocUpd_addr]
        exact hr (deallocUpd_active a al1 ha1) (deallocUpd_active a al2 ha2)
      · unfold ActiveInRange at h2 ⊢
        intro al' hal' hact'
        rcases List.mem_map.mp hal' with ⟨al, hal, rfl⟩
        obtain ⟨s, hs, hsid, hallc⟩ := h2 al hal (deallocUpd_active a al hact')
        refine ⟨s, hs, ?_, ?_⟩
        · rw [deallocUpd_subnetId]
          exact hsid
        · rw [deallocUpd_addr]
          exact hallc

/-- The invariants are preserved along any operation sequence. -/
lemma inv_foldl (ops : List Op) : ∀ st, NoDoubleActive st → ActiveInRange st →
    NoDoubleActive (ops.foldl applyOp st) ∧ ActiveInRange (ops.foldl applyOp st) := by
  induction ops with
  | nil => exact fun st h1 h2 => ⟨h1, h2⟩
  | cons op ops ih =>
    intro st h1 h2
    rw [List.foldl_cons]
    obtain ⟨g1, g2⟩ := inv_preserved st op h1 h2
    exact ih _ g1 g2

/-- C1: every state reachable from an allocation-free initial state by any
sequence of allocate and deallocate operations has no two active
allocations sharing an address (globally), and every active allocation's
address is allocatable in its subnet (inside the host range, excluding
network, broadcast and gateway addresses). -/
theorem c1_global_unique_active_in_range (subnets : List Subnet) (ops : List Op) :
    NoDoubleActive (runOps subnets ops) ∧ ActiveInRange (runOps subnets ops) := by
  unfold runOps
  apply inv_foldl
  · exact List.Pairwise.nil
  · intro al hal halact
    exact absurd hal (List.not_mem_nil al)

/-- Counting over a `filterMap` as a count over the source list. -/
lemma countP_filterMap {α β : Type} (f : α → Option β) (p : β → Bool) (l : List α) :
    (l.filterMap f).countP p = l.countP (fun x => ((f x).map p).getD false) := by
  induction l with
  | nil => rfl
  | cons x xs ih =>
    cases hfx : f x with
    | none => simp [List.filterMap_cons, hfx, List.countP_cons, ih]
    | some y =>
      cases hpy : p y <;>
        simp [List.filterMap_cons, hfx, List.countP_cons, ih, hpy]

/-- A `filterMap` whose outputs all fail `p` contributes no counts. -/
lemma countP_filterMap_zero {α β : Type} (f : α → Option β) (p : β → Bool) (l : List α)
    (h : ∀ x ∈ l, ∀ y, f x = some y → p y = false) :
    (l.filterMap f).countP p = 0 := by
  rw [countP_filterMap, List.countP_eq_zero]
  intro x hx
  cases hfx : f x with
  | none => simp [hfx]
  | some y => simp [hfx, h x hx y hfx]

/-- Pointwise description of the counted outputs of a `filterMap`. -/
lemma countP_filterMap_eq {α β : Type} (f : α → Option β) (p : β → Bool) (q : α → Bool)
    (l : List α) (h : ∀ x ∈ l, ((f x).map p).getD false = q x) :
    (l.filterMap f).countP p = l.countP q := by
  rw [countP_filterMap]
  exact List.countP_congr (fun x hx => by rw [h x hx])

/-- With pairwise-distinct keys, exactly one element carries key `a`. -/
lemma countP_key_one {α : Type} (key : α → Nat) (l : List α) (a : Nat)
    (hnd : (l.map key).Nodup) (hmem : a ∈ l.map key) :
    l.countP (fun x => key x == a) = 1 := by
  induction l with
  | nil => cases hmem
  | cons x xs ih =>
    rw [List.map_cons] at hnd hmem
    rw [List.nodup_cons] at hnd
    rw [List.countP_cons]
    rcases List.mem_cons.mp hmem with heq | hmem'
    · have hz : xs.countP (fun y => key y == a) = 0 := by
        rw [List.countP_eq_zero]
        intro y hy hby
        rw [beq_iff_eq] at hby
        apply hnd.1
        rw [← heq, ← hby]
        exact List.mem_map_of_mem key hy
      rw [hz, heq]
      simp
    · have h1 := ih hnd.2 hmem'
      have hx : (key x == a) = false := by
        rw [beq_eq_false_iff_ne]
        intro heq
        exact hnd.1 (heq ▸ hmem')
      rw [h1, hx]
      simp

/-- C6: an active allocation whose address is absent from the discovery
snapshot yields exactly one `Stale` conflict for that address; an observed
device whose address has no active allocation yields exactly one `Rogue`
conflict for that address. -/
theorem c6_stale_rogue_counts (allocs : List ActiveAlloc) (devs : List DiscoveredDevice) (a : Nat) :
    ((allocs.map ActiveAlloc.addr).Nodup → a ∈ allocs.map ActiveAlloc.addr →
      (∀ d ∈ devs, d.addr ≠ a) →
      (reconcile allocs devs).countP
        (fun c => c.addr == a && c.kind == ConflictKind.Stale) = 1)
    ∧ ((devs.map DiscoveredDevice.addr).Nodup → a ∈ devs.map DiscoveredDevice.addr →
      (∀ al ∈ allocs, al.addr ≠ a) →
      (reconcile allocs devs).countP
        (fun c => c.addr == a && c.kind == ConflictKind.Rogue) = 1) := by
  constructor
  · intro hnd hmem hdev
    unfold reconcile
    rw [List.countP_append]
    rw [countP_filterMap_zero _ _ devs ?hz, Nat.add_zero]
    case hz =>
      intro d hd c hc
      split at hc
      · exact Option.noConfusion hc
      · cases hc
        simp
    rw [countP_filterMap_eq _ _ (fun al => al.addr == a) allocs ?hq]
    case hq =>
      intro al hal
      cases haddr : (al.addr == a) with
      | true =>
        rw [beq_iff_eq] at haddr
        subst haddr
        have hfind : devs.find? (fun d => d.addr == al.addr) = none := by
          rw [List.find?_eq_none]
          intro d hd
          simp only [beq_iff_eq]
          exact hdev d hd
        simp [hfind]
      | false =>
        cases hfind : devs.find? (fun d => d.addr == al.addr) with
        | none => simp [hfind, haddr]
        | some d => cases hmis : identityMismatch al d <;> simp [hfind, hmis, haddr]
    exact countP_key_one ActiveAlloc.addr allocs a hnd hmem
  · intro hnd hmem hal
    unfold reconcile
    rw [List.countP_append]
    rw [countP_filterMap_zero _ _ allocs ?hz, Nat.zero_add]
    case hz =>
      intro al halm c hc
      revert hc
      split
      · intro hc
        cases hc
        simp
      · intro hc
        split at hc
        · cases hc
          simp
        · exact Option.noConfusion hc
    rw [countP_filterMap_eq _ _ (fun d => d.addr == a) devs ?hq]
    case hq =>
      intro d hd
      cases haddr : (d.addr == a) with
      | true =>
        rw [beq_iff_eq] at haddr
        subst haddr
        have hany : allocs.any (fun al => al.addr == d.addr) = false := by
          rw [List.any_eq_false]
          intro al halm
          simp only [beq_iff_eq]
          exact hal al halm
        simp [hany]
      | false =>
        cases hany : allocs.any (fun al => al.addr == d.addr) <;> simp [hany, haddr]
    exact countP_key_one DiscoveredDevice.addr devs a hnd hmem

/-- C6 witness: both clauses at address `10.0.0.5` — an allocation with no
observed device, and a device with no allocation. -/
theorem c6_stale_rogue_witness :
    (reconcile [⟨ipv4 10 0 0 5, none⟩] []).countP
        (fun c => c.addr == ipv4 10 0 0 5 && c.kind == ConflictKind.Stale) = 1
    ∧ (reconcile [] [⟨ipv4 10 0 0 5, none⟩]).countP
        (fun c => c.addr == ipv4 10 0 0 5 && c.kind == ConflictKind.Rogue) = 1 :=
  ⟨(c6_stale_rogue_counts [⟨ipv4 10 0 0 5, none⟩] [] (ipv4 10 0 0 5)).1
      (by decide) (by decide) (by decide),
    (c6_stale_rogue_counts [] [⟨ipv4 10 0 0 5, none⟩] (ipv4 10 0 0 5)).2
      (by decide) (by decide) (by decide)⟩
